import Mathlib

/-!
Shallow embedding of the preflight resolution and dispatch layer of
`oca_port/__init__.py` (functions `main`, `_check_remote`, `_fetch_branches`,
`_check_branches`, `_check_addon_exists`), together with theorems settling the
claims about it.

The embedding makes the ambient repository state explicit (a `Repo` record),
models each fatal `click.ClickException` as an `Outcome.clickException` carrying
the exact message built by the source, and records the observable steps of a run
as a trace of `Event`s so that ordering properties can be stated.  The
`misc.Branch` constructor lives in a module that is not part of the embedded
file; theorems that depend on it quantify over an arbitrary constructor `Ctor`,
and a spec-modelled constructor `Branch.make` is provided for concrete runs.
-/

namespace OcaPort

-- Modelled from the spec: terminal color escape codes of `misc.bcolors`
-- (module `misc` is not under `src/`).  The exact escape values are irrelevant
-- to every claim below; only the messages around them matter.
namespace bc

def FAIL : String := "\x1b[91m"

def END : String := "\x1b[0m"

def ENDC : String := "\x1b[0m"

def DIM : String := "\x1b[2m"

def BOLD : String := "\x1b[1m"

end bc

/-- Ambient state of the local git repository, as far as this layer reads it:
the configured remote names (`repo.remotes`), the local head names
(`repo.heads`), whether tracked content has uncommitted (staged or unstaged)
modifications, whether untracked files are present, and for each ref string the
immediate child directories of the root tree of the commit it resolves to
(`repo.commit(ref).tree.trees` paths). -/
structure Repo where
  remotes : List String
  heads : List String
  trackedChanges : Bool
  untrackedFiles : Bool
  rootDirs : String → List String

/-- Modelled from the documented behavior of the external GitPython library:
`repo.is_dirty()` with default arguments reports staged or unstaged changes to
tracked content and ignores untracked files (`untracked_files=False` is the
default). -/
def Repo.is_dirty (r : Repo) : Bool := r.trackedChanges

/-- Modelled from the spec: a resolved `misc.Branch` value (module `misc` is
not under `src/`), carrying the repository handle, the bare branch name and the
bound remote, if any (spec section on Branch Reference). -/
structure Branch where
  repo : Repo
  name : String
  remote : Option String

/-- Python truthiness of an optional string: `None` and the empty string are
falsy, every other string is truthy. -/
def optTruthy : Option String → Bool
  | none => false
  | some s => !(s == "")

/-- Modelled from the spec: `misc.Branch.ref()` renders the canonical
identifier, `remote/name` when bound to a remote, else `name`. -/
def Branch.ref (b : Branch) : String :=
  match b.remote with
  | some r => r ++ "/" ++ b.name
  | none => b.name

/-- Dispatch decision: which of the two workflow collaborators is constructed
and run. -/
inductive Dispatch where
  | migrate
  | portPullRequests
deriving DecidableEq

/-- Observable steps of one run, in order: the entry dirty check, a
`_check_remote` call, a `misc.Branch` construction attempt, one fetch of one
branch from one remote, the `_check_branches` call, the two
`_check_addon_exists` calls, and the construction-and-run of a workflow
collaborator. -/
inductive Event where
  | dirtyCheck
  | remoteValidation (remote : String)
  | branchResolution (input : String)
  | fetch (remote : String) (branchName : String)
  | branchCheck
  | addonCheckSource
  | addonCheckTarget
  | runWorkflow (d : Dispatch)
deriving DecidableEq

/-- Final outcome of one run: a workflow collaborator ran to completion, a
`click.ClickException` was raised with the given message, or an exception the
source never catches escaped (an `AttributeError` from accessing `.remote` on a
plain string, or the error GitPython raises when `repo.remotes[name]` is given
an unknown name). -/
inductive Outcome where
  | finished (d : Dispatch)
  | clickException (msg : String)
  | uncaughtAttributeError
  | uncaughtIndexError
deriving DecidableEq

/-- Value held by the `from_branch` / `to_branch` variables of `main`: the raw
CLI string until `misc.Branch` succeeds, a `Branch` afterwards.  When the
constructor raises and the except-handler returns, the variables keep their raw
string values. -/
inductive BVal where
  | raw (s : String)
  | br (b : Branch)

/-- CLI arguments of the single command, as bound by click. -/
structure Args where
  from_branch : String
  to_branch : String
  addon : String
  upstream_org : String
  upstream : String
  repo_name : Option String
  fork : Option String
  user_org : Option String
  verbose : Bool
  non_interactive : Bool

/-- Type of the `misc.Branch` constructor as `main` calls it:
`misc.Branch(repo, name, default_remote=upstream)`, either a `Branch` or a
`ValueError` whose arguments are `(repo, remote)` (that is how `main` unpacks
`exc.args` into `_check_remote(repo_name, *exc.args)`). -/
abbrev Ctor : Type := Repo → String → String → Except (Repo × String) Branch

/-- The `repo_name = repo_name or os.path.basename(os.getcwd())` line:
a missing or empty `--repo-name` falls back to the basename of the current
directory. -/
def resolveRepoName (cwdBase : String) (o : Option String) : String :=
  match o with
  | some n => if n = "" then cwdBase else n
  | none => cwdBase

/-- The SSH-form `git remote add` example of `_check_remote`. -/
def sshAddCmd (repo_name remote : String) : String :=
  "git remote add " ++ remote ++ " git@github.com:" ++ remote ++ "/" ++ repo_name ++ ".git"

/-- The HTTPS-form `git remote add` example of `_check_remote`. -/
def httpsAddCmd (repo_name remote : String) : String :=
  "git remote add " ++ remote ++ " https://github.com/" ++ remote ++ "/" ++ repo_name ++ ".git"

/-- The remediation message `_check_remote` builds when `remote` is not
configured, exactly as the source f-strings concatenate it. -/
def check_remote_msg (repo_name remote : String) : String :=
  "No remote " ++ bc.FAIL ++ remote ++ bc.END ++ " in the current repository.\n"
    ++ "To add it:\n"
    ++ "\t# This mode requires an SSH key in the GitHub account\n"
    ++ "\t" ++ bc.DIM ++ "$ " ++ sshAddCmd repo_name remote ++ bc.END ++ "\n"
    ++ "   Or:\n"
    ++ "\t# This will require to enter user/password each time\n"
    ++ "\t" ++ bc.DIM ++ "$ " ++ httpsAddCmd repo_name remote ++ bc.END

/-- Embedding of `_check_remote` (without the raise/return flag: `some msg`
means the remote is missing and `msg` is the message that is either returned,
with `raise_exc=False`, or raised as a `ClickException`, with
`raise_exc=True`). -/
def check_remote (repo_name : String) (repo : Repo) (remote : String) : Option String :=
  if remote ∈ repo.remotes then none else some (check_remote_msg repo_name remote)

/-- Embedding of `_fetch_branches`: walk the given branch values in order; a
raw string raises `AttributeError` at `branch.remote`; a `Branch` with a falsy
remote is skipped; otherwise `repo.remotes[remote]` is looked up (raising when
the name is unknown) and exactly the branch name is fetched from that remote.
Returns the fetch events in order and the escaping exception, if any. -/
def fetch_branches : List BVal → List Event × Option Outcome
  | [] => ([], none)
  | BVal.raw _ :: _ => ([], some Outcome.uncaughtAttributeError)
  | BVal.br b :: rest =>
      if optTruthy b.remote then
        if b.remote.getD "" ∈ b.repo.remotes then
          let p := fetch_branches rest
          (Event.fetch (b.remote.getD "") b.name :: p.1, p.2)
        else
          ([], some Outcome.uncaughtIndexError)
      else
        fetch_branches rest

/-- Message `_check_branches` raises when the source branch has no remote. -/
def srcBranchErrMsg (b : Branch) : String :=
  "No source branch " ++ bc.BOLD ++ b.ref ++ bc.END ++ " available."

/-- Message `_check_branches` raises when the target branch has neither a
remote nor a local head. -/
def tgtBranchErrMsg (b : Branch) : String :=
  "No target branch " ++ bc.BOLD ++ b.name ++ bc.END ++ " or "
    ++ bc.BOLD ++ b.ref ++ bc.END ++ " available locally."

/-- Embedding of `_check_branches`: the source branch must have a (truthy)
remote; the target branch must have a (truthy) remote or exist among the local
heads. -/
def check_branches (from_b to_b : Branch) : Except String Bool :=
  if !optTruthy from_b.remote then
    Except.error (srcBranchErrMsg from_b)
  else if !optTruthy to_b.remote && !(to_b.name ∈ to_b.repo.heads : Bool) then
    Except.error (tgtBranchErrMsg to_b)
  else
    Except.ok true

/-- Message `_check_addon_exists` raises when the addon is missing and
`raise_exc` is set. -/
def missingAddonMsg (addon : String) (b : Branch) : String :=
  bc.FAIL ++ addon ++ bc.ENDC ++ " does not exist on " ++ b.ref

/-- Embedding of `_check_addon_exists`: list the immediate child directories of
the root tree of the commit the branch ref resolves to and test membership of
the addon name. -/
def check_addon_exists (addon : String) (branch : Branch) (raise_exc : Bool) :
    Except String Bool :=
  let branch_addons := branch.repo.rootDirs branch.ref
  if addon ∉ branch_addons then
    if !raise_exc then Except.ok false
    else Except.error (missingAddonMsg addon branch)
  else
    Except.ok true

/-- Dispatch suffix of `main`: the source addon check with `raise_exc=True`,
the construction of the opaque `InputStorage` (no observable effect here), the
target addon check, and the construction-and-run of exactly one of the two
workflow collaborators. -/
def mainDispatch (addon : String) (fb tb : Branch) (tr : List Event) :
    List Event × Outcome :=
  match check_addon_exists addon fb true with
  | Except.error msg => (tr ++ [Event.addonCheckSource], Outcome.clickException msg)
  | Except.ok _ =>
      match check_addon_exists addon tb false with
      | Except.error msg =>
          (tr ++ [Event.addonCheckSource, Event.addonCheckTarget], Outcome.clickException msg)
      | Except.ok present =>
          if present then
            (tr ++ [Event.addonCheckSource, Event.addonCheckTarget,
                    Event.runWorkflow Dispatch.portPullRequests],
             Outcome.finished Dispatch.portPullRequests)
          else
            (tr ++ [Event.addonCheckSource, Event.addonCheckTarget,
                    Event.runWorkflow Dispatch.migrate],
             Outcome.finished Dispatch.migrate)

/-- Fetch-and-later suffix of `main`: `_fetch_branches(from_branch, to_branch)`
followed, when no exception escapes, by `_check_branches` and the dispatch
suffix.  The catch-all arm is unreachable: a raw value always makes
`fetch_branches` report an exception. -/
def mainFetchOn (a : Args) (fv tv : BVal) (tr : List Event) : List Event × Outcome :=
  let p := fetch_branches [fv, tv]
  match p.2 with
  | some out => (tr ++ p.1, out)
  | none =>
      match fv, tv with
      | BVal.br fb, BVal.br tb =>
          match check_branches fb tb with
          | Except.error msg => (tr ++ p.1 ++ [Event.branchCheck], Outcome.clickException msg)
          | Except.ok _ => mainDispatch a.addon fb tb (tr ++ p.1 ++ [Event.branchCheck])
      | _, _ => (tr ++ p.1, Outcome.uncaughtAttributeError)

/-- Branch-parsing suffix of `main`: the try block constructing the two
`misc.Branch` values; on `ValueError` the handler calls
`_check_remote(repo_name, *exc.args)` with `raise_exc=True`, which raises only
when the remote named by the exception is not configured — otherwise execution
falls through to the fetch step with the branch variables still holding their
raw strings. -/
def mainAfterFork (ctor : Ctor) (repo : Repo) (repo_name : String) (a : Args)
    (tr : List Event) : List Event × Outcome :=
  match ctor repo a.from_branch a.upstream with
  | Except.error e =>
      let tr2 := tr ++ [Event.branchResolution a.from_branch, Event.remoteValidation e.2]
      match check_remote repo_name e.1 e.2 with
      | some msg => (tr2, Outcome.clickException msg)
      | none => mainFetchOn a (BVal.raw a.from_branch) (BVal.raw a.to_branch) tr2
  | Except.ok fb =>
      match ctor repo a.to_branch a.upstream with
      | Except.error e =>
          let tr2 := tr ++ [Event.branchResolution a.from_branch,
                            Event.branchResolution a.to_branch, Event.remoteValidation e.2]
          match check_remote repo_name e.1 e.2 with
          | some msg => (tr2, Outcome.clickException msg)
          | none => mainFetchOn a (BVal.br fb) (BVal.raw a.to_branch) tr2
      | Except.ok tb =>
          mainFetchOn a (BVal.br fb) (BVal.br tb)
            (tr ++ [Event.branchResolution a.from_branch, Event.branchResolution a.to_branch])

/-- Message of the entry dirty check. -/
def dirtyMsg : String := "changes not committed detected in this repository."

/-- Suffix appended to the `_check_remote` message at the `--fork` call site. -/
def forkSuffix : String :=
  "\n\nYou can change the GitHub organization with the "
    ++ bc.DIM ++ "--user-org" ++ bc.END ++ " option."

/-- Embedding of `main`: entry dirty check, `repo_name` and `user_org`
defaulting, eager `--fork` remote validation with `raise_exc=False`, then the
branch-parsing, fetch, branch-check and dispatch suffixes.  `cwdBase` stands
for `os.path.basename(os.getcwd())`. -/
def main (ctor : Ctor) (repo : Repo) (cwdBase : String) (a : Args) :
    List Event × Outcome :=
  if repo.is_dirty then
    ([Event.dirtyCheck], Outcome.clickException dirtyMsg)
  else
    let repo_name := resolveRepoName cwdBase a.repo_name
    let _user_org := if optTruthy a.user_org then a.user_org else a.fork
    match a.fork with
    | none => mainAfterFork ctor repo repo_name a [Event.dirtyCheck]
    | some f =>
        if f = "" then
          mainAfterFork ctor repo repo_name a [Event.dirtyCheck]
        else
          match check_remote repo_name repo f with
          | some msg =>
              ([Event.dirtyCheck, Event.remoteValidation f],
               Outcome.clickException (msg ++ forkSuffix))
          | none =>
              mainAfterFork ctor repo repo_name a
                [Event.dirtyCheck, Event.remoteValidation f]

/-- Modelled from the spec: fallback rule of the `misc.Branch` constructor for
a name with no recognised remote prefix — an existing local head is a purely
local reference, otherwise the default remote is assumed, and an unknown
default remote raises `ValueError(repo, default_remote)`. -/
def mkFromPlain (repo : Repo) (input default_remote : String) :
    Except (Repo × String) Branch :=
  if input ∈ repo.heads then Except.ok ⟨repo, input, none⟩
  else if default_remote ∈ repo.remotes then Except.ok ⟨repo, input, some default_remote⟩
  else Except.error (repo, default_remote)

/-- Splitting of a character list on the slash character, mirroring
`str.split("/")` on the underlying characters; written by structural recursion
so that concrete runs reduce inside the kernel. -/
def splitOnSlash : List Char → List (List Char)
  | [] => [[]]
  | c :: rest =>
      if c = '/' then [] :: splitOnSlash rest
      else
        match splitOnSlash rest with
        | [] => [[c]]
        | h :: t => (c :: h) :: t

/-- Modelled from the spec: the `misc.Branch` constructor (module `misc` is not
under `src/`).  A name of the form `remote/branch` whose first component is a
known remote binds that remote; every other name follows the fallback rule.
Used only to build concrete runs; the theorems quantify over the constructor. -/
def Branch.make (repo : Repo) (input : String) (default_remote : String) :
    Except (Repo × String) Branch :=
  match (splitOnSlash input.data).map (fun l => String.mk l) with
  | [r, n] =>
      if r ∈ repo.remotes then Except.ok ⟨repo, n, some r⟩
      else mkFromPlain repo input default_remote
  | _ => mkFromPlain repo input default_remote

/-- Recogniser for the workflow-dispatch event. -/
def isRunWf : Event → Bool
  | Event.runWorkflow _ => true
  | _ => false

/-- Recogniser for fetch events. -/
def isFetchEv : Event → Bool
  | Event.fetch _ _ => true
  | _ => false

/-- Recogniser for branch-resolution events. -/
def isBranchResE : Event → Bool
  | Event.branchResolution _ => true
  | _ => false

/-- Recogniser for the entry dirty-check event. -/
def isDirtyE : Event → Bool
  | Event.dirtyCheck => true
  | _ => false

/-- Recogniser for remote-validation events. -/
def isRemoteValE : Event → Bool
  | Event.remoteValidation _ => true
  | _ => false

/-- Recogniser for the branch-existence-check event. -/
def isBranchCheckE : Event → Bool
  | Event.branchCheck => true
  | _ => false

/-- Recogniser for the source addon check event. -/
def isSrcAddonE : Event → Bool
  | Event.addonCheckSource => true
  | _ => false

/-- Recogniser for the target addon check event. -/
def isTgtAddonE : Event → Bool
  | Event.addonCheckTarget => true
  | _ => false

/-- Workflow events an outcome accounts for: one dispatch when a workflow ran,
none otherwise. -/
def wfEvents : Outcome → List Event
  | Outcome.finished d => [Event.runWorkflow d]
  | _ => []

/-- Dispatch decision carried by an outcome, if the run reached dispatch. -/
def decisionOf : Outcome → Option Dispatch
  | Outcome.finished d => some d
  | _ => none

/-- Strict ordering of event classes inside a trace: every event matched by `p`
occurs strictly before every event matched by `q`. -/
def eventOrdered (tr : List Event) (p q : Event → Bool) : Prop :=
  ∀ i j, (h1 : i < tr.length) → (h2 : j < tr.length) →
    p (tr.get ⟨i, h1⟩) = true → q (tr.get ⟨j, h2⟩) = true → i < j

/-- The ordering of preflight steps asserted by the data/control-flow sentence
of the spec: branch resolution, then dirty check, then remote validation, then
fetch, then branch existence check, then source addon check, then target addon
check, then dispatch. -/
def specFlowOrder (tr : List Event) : Prop :=
  eventOrdered tr isBranchResE isDirtyE
    ∧ eventOrdered tr isDirtyE isRemoteValE
    ∧ eventOrdered tr isRemoteValE isFetchEv
    ∧ eventOrdered tr isFetchEv isBranchCheckE
    ∧ eventOrdered tr isBranchCheckE isSrcAddonE
    ∧ eventOrdered tr isSrcAddonE isTgtAddonE
    ∧ eventOrdered tr isTgtAddonE isRunWf

/-- Whether the eager `--fork` validation lets the run continue: no fork
requested, an empty fork name, or a configured fork remote. -/
def forkGateB (repo : Repo) (fork : Option String) : Bool :=
  match fork with
  | none => true
  | some f => if f = "" then true else decide (f ∈ repo.remotes)

/-- Events the eager `--fork` validation contributes to the trace. -/
def forkEvents (fork : Option String) : List Event :=
  match fork with
  | none => []
  | some f => if f = "" then [] else [Event.remoteValidation f]

/-- Fetch events one branch reference contributes: exactly one fetch of its
name from its bound remote, or none when no remote is bound. -/
def fetchEvtsOf (b : Branch) : List Event :=
  if optTruthy b.remote then [Event.fetch (b.remote.getD "") b.name] else []

/-- Concrete repository used for witnesses: clean tree, two remotes, one local
head, addon `shopfloor` present on `origin/13.0` and absent on `origin/14.0`. -/
def repo0 : Repo where
  remotes := ["origin", "camptocamp"]
  heads := ["14.0-mig"]
  trackedChanges := false
  untrackedFiles := false
  rootDirs := fun r =>
    if r = "origin/13.0" then ["shopfloor", "stock"]
    else if r = "origin/14.0" then ["stock"]
    else []

/-- Concrete CLI invocation used for witnesses. -/
def args0 : Args where
  from_branch := "13.0"
  to_branch := "14.0"
  addon := "shopfloor"
  upstream_org := "OCA"
  upstream := "origin"
  repo_name := some "wms"
  fork := some "camptocamp"
  user_org := none
  verbose := false
  non_interactive := false

/-- Resolved source branch of the witness invocation. -/
def fbr0 : Branch := Branch.mk repo0 "13.0" (some "origin")

/-- Resolved target branch of the witness invocation. -/
def tbr0 : Branch := Branch.mk repo0 "14.0" (some "origin")

/-- A purely local branch reference over the witness repository. -/
def lb0 : Branch := Branch.mk repo0 "14.0-mig" none

/-- A branch reference with neither a remote nor a matching local head. -/
def tb1 : Branch := Branch.mk repo0 "15.0" none

/-- Witness repository with uncommitted tracked changes. -/
def repoD : Repo := { repo0 with trackedChanges := true }

/-- Witness repository whose working tree differs from HEAD only by untracked
files. -/
def repoU : Repo := { repo0 with untrackedFiles := true }

/-- Witness repository where the addon is absent from the source branch root
tree but present on the target branch. -/
def repoM : Repo :=
  { repo0 with
    rootDirs := fun r =>
      if r = "origin/13.0" then ["stock"]
      else if r = "origin/14.0" then ["shopfloor", "stock"]
      else [] }

/-- Resolved source branch over `repoM`. -/
def fbM : Branch := Branch.mk repoM "13.0" (some "origin")

/-- Resolved target branch over `repoM`. -/
def tbM : Branch := Branch.mk repoM "14.0" (some "origin")

/-- Witness repository with no `camptocamp` remote configured. -/
def repoNC : Repo := { repo0 with remotes := ["origin"] }

/-- A constructor that raises `ValueError(repo, "origin")` for the source
branch name, standing for a `misc.Branch` failure that names a configured
remote. -/
def ctorBad : Ctor := fun rp s _ =>
  if s = "13.0" then Except.error (rp, "origin") else Except.ok ⟨rp, s, some "origin"⟩

theorem fetch_branches_err : ∀ (l : List BVal) (o : Outcome),
    (fetch_branches l).2 = some o →
    o = Outcome.uncaughtAttributeError ∨ o = Outcome.uncaughtIndexError := by
  intro l
  induction l with
  | nil => intro o h; simp [fetch_branches] at h
  | cons v rest ih =>
    intro o h
    cases v with
    | raw s =>
        simp only [fetch_branches] at h
        exact Or.inl (Option.some.inj h).symm
    | br b =>
        simp only [fetch_branches] at h
        by_cases hr : optTruthy b.remote
        · rw [if_pos hr] at h
          by_cases hm : b.remote.getD "" ∈ b.repo.remotes
          · rw [if_pos hm] at h
            exact ih o h
          · rw [if_neg hm] at h
            exact Or.inr (Option.some.inj h).symm
        · rw [if_neg hr] at h
          exact ih o h

theorem fetch_branches_events_fetch : ∀ (l : List BVal) (e : Event),
    e ∈ (fetch_branches l).1 → isFetchEv e = true := by
  intro l
  induction l with
  | nil => intro e h; simp [fetch_branches] at h
  | cons v rest ih =>
    intro e h
    cases v with
    | raw s => simp [fetch_branches] at h
    | br b =>
        simp only [fetch_branches] at h
        by_cases hr : optTruthy b.remote
        · rw [if_pos hr] at h
          by_cases hm : b.remote.getD "" ∈ b.repo.remotes
          · rw [if_pos hm] at h
            rcases List.mem_cons.1 h with h1 | h2
            · subst h1; rfl
            · exact ih e h2
          · rw [if_neg hm] at h
            simp at h
        · rw [if_neg hr] at h
          exact ih e h

theorem fetch_branches_no_wf (l : List BVal) :
    ((fetch_branches l).1).filter isRunWf = [] := by
  rw [List.filter_eq_nil_iff]
  intro e he hwf
  have hf := fetch_branches_events_fetch l e he
  cases e <;> simp [isFetchEv, isRunWf] at hf hwf

theorem fetch_branches_ok (fb tb : Branch)
    (h1 : optTruthy fb.remote = true → fb.remote.getD "" ∈ fb.repo.remotes)
    (h2 : optTruthy tb.remote = true → tb.remote.getD "" ∈ tb.repo.remotes) :
    fetch_branches [BVal.br fb, BVal.br tb] = (fetchEvtsOf fb ++ fetchEvtsOf tb, none) := by
  by_cases ha : optTruthy fb.remote
  · have hm1 := h1 ha
    by_cases hb : optTruthy tb.remote
    · have hm2 := h2 hb
      simp [fetch_branches, fetchEvtsOf, ha, hb, hm1, hm2]
    · simp [fetch_branches, fetchEvtsOf, ha, hb, hm1]
  · by_cases hb : optTruthy tb.remote
    · have hm2 := h2 hb
      simp [fetch_branches, fetchEvtsOf, ha, hb, hm2]
    · simp [fetch_branches, fetchEvtsOf, ha, hb]

theorem mainDispatch_filter (addon : String) (fb tb : Branch) (tr : List Event) :
    ((mainDispatch addon fb tb tr).1).filter isRunWf
      = tr.filter isRunWf ++ wfEvents (mainDispatch addon fb tb tr).2 := by
  unfold mainDispatch
  cases h1 : check_addon_exists addon fb true with
  | error msg => simp [List.filter_append, isRunWf, wfEvents]
  | ok b1 =>
      cases h2 : check_addon_exists addon tb false with
      | error msg => simp [List.filter_append, isRunWf, wfEvents]
      | ok present =>
          by_cases hp : present
          · simp [hp, List.filter_append, isRunWf, wfEvents]
          · simp [hp, List.filter_append, isRunWf, wfEvents]

theorem mainFetchOn_filter (a : Args) (fv tv : BVal) (tr : List Event) :
    ((mainFetchOn a fv tv tr).1).filter isRunWf
      = tr.filter isRunWf ++ wfEvents (mainFetchOn a fv tv tr).2 := by
  cases hp : (fetch_branches [fv, tv]).2 with
  | some o =>
      rcases fetch_branches_err _ o hp with h | h <;>
        simp [mainFetchOn, hp, h, List.filter_append, wfEvents, fetch_branches_no_wf]
  | none =>
      cases fv with
      | raw s => simp [mainFetchOn, hp, List.filter_append, wfEvents, fetch_branches_no_wf]
      | br fb =>
          cases tv with
          | raw s => simp [mainFetchOn, hp, List.filter_append, wfEvents, fetch_branches_no_wf]
          | br tb =>
              cases hc : check_branches fb tb with
              | error msg =>
                  simp [mainFetchOn, hp, hc, List.filter_append, wfEvents, isRunWf,
                    fetch_branches_no_wf]
              | ok b =>
                  simp only [mainFetchOn, hp, hc]
                  rw [mainDispatch_filter]
                  simp [List.filter_append, isRunWf, fetch_branches_no_wf]

theorem mainAfterFork_filter (ctor : Ctor) (repo : Repo) (rn : String) (a : Args)
    (tr : List Event) :
    ((mainAfterFork ctor repo rn a tr).1).filter isRunWf
      = tr.filter isRunWf ++ wfEvents (mainAfterFork ctor repo rn a tr).2 := by
  cases hf : ctor repo a.from_branch a.upstream with
  | error e =>
      cases hc : check_remote rn e.1 e.2 with
      | some msg => simp [mainAfterFork, hf, hc, List.filter_append, isRunWf, wfEvents]
      | none =>
          simp only [mainAfterFork, hf, hc]
          rw [mainFetchOn_filter]
          simp [List.filter_append, isRunWf]
  | ok fb =>
      cases ht : ctor repo a.to_branch a.upstream with
      | error e =>
          cases hc : check_remote rn e.1 e.2 with
          | some msg => simp [mainAfterFork, hf, ht, hc, List.filter_append, isRunWf, wfEvents]
          | none =>
              simp only [mainAfterFork, hf, ht, hc]
              rw [mainFetchOn_filter]
              simp [List.filter_append, isRunWf]
      | ok tb =>
          simp only [mainAfterFork, hf, ht]
          rw [mainFetchOn_filter]
          simp [List.filter_append, isRunWf]

theorem main_filter (ctor : Ctor) (repo : Repo) (cwd : String) (a : Args) :
    ((main ctor repo cwd a).1).filter isRunWf = wfEvents (main ctor repo cwd a).2 := by
  by_cases hd : repo.is_dirty
  · simp [main, hd, isRunWf, wfEvents]
  · cases hf : a.fork with
    | none =>
        simp only [main, hd, Bool.false_eq_true, if_false, hf]
        rw [mainAfterFork_filter]
        simp [isRunWf]
    | some f =>
        by_cases hfe : f = ""
        · subst hfe
          simp only [main, hd, Bool.false_eq_true, if_false, hf]
          rw [if_pos trivial, mainAfterFork_filter]
          simp [isRunWf]
        · cases hc : check_remote (resolveRepoName cwd a.repo_name) repo f with
          | some msg =>
              simp [main, hd, hf, hfe, hc, isRunWf, wfEvents]
          | none =>
              simp only [main, hd, Bool.false_eq_true, if_false, hf, if_neg hfe, hc]
              rw [mainAfterFork_filter]
              simp [isRunWf]

theorem main_gates (ctor : Ctor) (repo : Repo) (cwd : String) (a : Args)
    (hd : repo.is_dirty = false) (hfg : forkGateB repo a.fork = true) :
    main ctor repo cwd a
      = mainAfterFork ctor repo (resolveRepoName cwd a.repo_name) a
          (Event.dirtyCheck :: forkEvents a.fork) := by
  unfold main
  rw [hd]
  simp only [Bool.false_eq_true, if_false]
  cases hf : a.fork with
  | none => simp [forkEvents]
  | some f =>
      by_cases hfe : f = ""
      · subst hfe; simp [forkEvents]
      · have hmem : f ∈ repo.remotes := by
          rw [hf] at hfg
          simpa [forkGateB, hfe] using hfg
        simp [forkEvents, hfe, check_remote, hmem]

theorem mainDispatch_finished (addon : String) (fb tb : Branch) (tr : List Event)
    (d : Dispatch) (h : (mainDispatch addon fb tb tr).2 = Outcome.finished d) :
    d = (if addon ∈ tb.repo.rootDirs tb.ref then Dispatch.portPullRequests
         else Dispatch.migrate) := by
  by_cases hs : addon ∈ fb.repo.rootDirs fb.ref
  · by_cases ht : addon ∈ tb.repo.rootDirs tb.ref
    · simp [mainDispatch, check_addon_exists, hs, ht] at h ⊢
      exact h.symm
    · simp [mainDispatch, check_addon_exists, hs, ht] at h ⊢
      exact h.symm
  · simp [mainDispatch, check_addon_exists, hs] at h

theorem mainFetchOn_finished (a : Args) (fv tv : BVal) (tr : List Event) (d : Dispatch)
    (h : (mainFetchOn a fv tv tr).2 = Outcome.finished d) :
    ∃ fb tb, fv = BVal.br fb ∧ tv = BVal.br tb
      ∧ d = (if a.addon ∈ tb.repo.rootDirs tb.ref then Dispatch.portPullRequests
             else Dispatch.migrate) := by
  cases hp : (fetch_branches [fv, tv]).2 with
  | some o =>
      rcases fetch_branches_err _ o hp with ho | ho <;>
        simp [mainFetchOn, hp, ho] at h
  | none =>
      cases fv with
      | raw s => simp [mainFetchOn, hp] at h
      | br fb =>
          cases tv with
          | raw s => simp [mainFetchOn, hp] at h
          | br tb =>
              cases hc : check_branches fb tb with
              | error msg => simp [mainFetchOn, hp, hc] at h
              | ok b =>
                  simp only [mainFetchOn, hp, hc] at h
                  exact ⟨fb, tb, rfl, rfl, mainDispatch_finished _ _ _ _ _ h⟩

theorem mainAfterFork_finished (ctor : Ctor) (repo : Repo) (rn : String) (a : Args)
    (tr : List Event) (d : Dispatch)
    (h : (mainAfterFork ctor repo rn a tr).2 = Outcome.finished d) :
    ∃ fb tb, ctor repo a.from_branch a.upstream = Except.ok fb
      ∧ ctor repo a.to_branch a.upstream = Except.ok tb
      ∧ d = (if a.addon ∈ tb.repo.rootDirs tb.ref then Dispatch.portPullRequests
             else Dispatch.migrate) := by
  cases hf : ctor repo a.from_branch a.upstream with
  | error e =>
      cases hc : check_remote rn e.1 e.2 with
      | some msg => simp [mainAfterFork, hf, hc] at h
      | none =>
          simp only [mainAfterFork, hf, hc] at h
          simp [mainFetchOn, fetch_branches] at h
  | ok fb =>
      cases ht : ctor repo a.to_branch a.upstream with
      | error e =>
          cases hc : check_remote rn e.1 e.2 with
          | some msg => simp [mainAfterFork, hf, ht, hc] at h
          | none =>
              simp only [mainAfterFork, hf, ht, hc] at h
              by_cases hr : optTruthy fb.remote
              · by_cases hm : fb.remote.getD "" ∈ fb.repo.remotes
                · simp [mainFetchOn, fetch_branches, hr, hm] at h
                · simp [mainFetchOn, fetch_branches, hr, hm] at h
              · simp [mainFetchOn, fetch_branches, hr] at h
      | ok tb =>
          simp only [mainAfterFork, hf, ht] at h
          obtain ⟨fb2, tb2, hfb2, htb2, hd2⟩ := mainFetchOn_finished _ _ _ _ _ h
          injection hfb2 with hfb2e
          injection htb2 with htb2e
          refine ⟨fb, tb, rfl, rfl, ?_⟩
          rw [htb2e]
          exact hd2

theorem main_finished (ctor : Ctor) (repo : Repo) (cwd : String) (a : Args) (d : Dispatch)
    (h : (main ctor repo cwd a).2 = Outcome.finished d) :
    ∃ fb tb, ctor repo a.from_branch a.upstream = Except.ok fb
      ∧ ctor repo a.to_branch a.upstream = Except.ok tb
      ∧ d = (if a.addon ∈ tb.repo.rootDirs tb.ref then Dispatch.portPullRequests
             else Dispatch.migrate) := by
  by_cases hd : repo.is_dirty
  · simp [main, hd] at h
  · cases hf : a.fork with
    | none =>
        simp only [main, hd, Bool.false_eq_true, if_false, hf] at h
        exact mainAfterFork_finished _ _ _ _ _ _ h
    | some f =>
        by_cases hfe : f = ""
        · subst hfe
          simp only [main, hd, Bool.false_eq_true, if_false, hf] at h
          rw [if_pos trivial] at h
          exact mainAfterFork_finished _ _ _ _ _ _ h
        · cases hc : check_remote (resolveRepoName cwd a.repo_name) repo f with
          | some msg => simp [main, hd, hf, hfe, hc] at h
          | none =>
              simp only [main, hd, Bool.false_eq_true, if_false, hf, if_neg hfe, hc] at h
              exact mainAfterFork_finished _ _ _ _ _ _ h

theorem main_pass_gates (ctor : Ctor) (repo : Repo) (cwd : String) (a : Args)
    (fb tb : Branch)
    (hd : repo.is_dirty = false) (hfg : forkGateB repo a.fork = true)
    (hcf : ctor repo a.from_branch a.upstream = Except.ok fb)
    (hct : ctor repo a.to_branch a.upstream = Except.ok tb) :
    main ctor repo cwd a
      = mainFetchOn a (BVal.br fb) (BVal.br tb)
          ((Event.dirtyCheck :: forkEvents a.fork)
            ++ [Event.branchResolution a.from_branch, Event.branchResolution a.to_branch]) := by
  rw [main_gates ctor repo cwd a hd hfg]
  simp [mainAfterFork, hcf, hct]

theorem main_happy (ctor : Ctor) (repo : Repo) (cwd : String) (a : Args)
    (fb tb : Branch)
    (hd : repo.is_dirty = false) (hfg : forkGateB repo a.fork = true)
    (hcf : ctor repo a.from_branch a.upstream = Except.ok fb)
    (hct : ctor repo a.to_branch a.upstream = Except.ok tb)
    (h1 : optTruthy fb.remote = true → fb.remote.getD "" ∈ fb.repo.remotes)
    (h2 : optTruthy tb.remote = true → tb.remote.getD "" ∈ tb.repo.remotes)
    (hcb : check_branches fb tb = Except.ok true) :
    main ctor repo cwd a
      = mainDispatch a.addon fb tb
          ((Event.dirtyCheck :: forkEvents a.fork)
            ++ [Event.branchResolution a.from_branch, Event.branchResolution a.to_branch]
            ++ (fetchEvtsOf fb ++ fetchEvtsOf tb) ++ [Event.branchCheck]) := by
  rw [main_pass_gates ctor repo cwd a fb tb hd hfg hcf hct]
  simp [mainFetchOn, fetch_branches_ok fb tb h1 h2, hcb, List.append_assoc]

theorem mainDispatch_len (addon : String) (fb tb : Branch) (tr : List Event) :
    tr.length ≤ ((mainDispatch addon fb tb tr).1).length := by
  unfold mainDispatch
  cases check_addon_exists addon fb true with
  | error msg => simp
  | ok b =>
      cases check_addon_exists addon tb false with
      | error msg => simp
      | ok present =>
          by_cases hp : present <;> simp [hp]

theorem mainFetchOn_len (a : Args) (fv tv : BVal) (tr : List Event) :
    tr.length ≤ ((mainFetchOn a fv tv tr).1).length := by
  cases hp : (fetch_branches [fv, tv]).2 with
  | some o => simp [mainFetchOn, hp]
  | none =>
      cases fv with
      | raw s => simp [mainFetchOn, hp]
      | br fb =>
          cases tv with
          | raw s => simp [mainFetchOn, hp]
          | br tb =>
              cases hc : check_branches fb tb with
              | error msg => simp [mainFetchOn, hp, hc]
              | ok b =>
                  simp only [mainFetchOn, hp, hc]
                  refine le_trans ?_ (mainDispatch_len a.addon fb tb _)
                  simp [List.length_append]

theorem mainAfterFork_len (ctor : Ctor) (repo : Repo) (rn : String) (a : Args)
    (tr : List Event) :
    tr.length + 2 ≤ ((mainAfterFork ctor repo rn a tr).1).length := by
  cases hf : ctor repo a.from_branch a.upstream with
  | error e =>
      cases hc : check_remote rn e.1 e.2 with
      | some msg => simp [mainAfterFork, hf, hc]
      | none =>
          simp only [mainAfterFork, hf, hc]
          refine le_trans ?_ (mainFetchOn_len a _ _ _)
          simp [List.length_append]
  | ok fb =>
      cases ht : ctor repo a.to_branch a.upstream with
      | error e =>
          cases hc : check_remote rn e.1 e.2 with
          | some msg => simp [mainAfterFork, hf, ht, hc]
          | none =>
              simp only [mainAfterFork, hf, ht, hc]
              refine le_trans ?_ (mainFetchOn_len a _ _ _)
              simp [List.length_append]
      | ok tb =>
          simp only [mainAfterFork, hf, ht]
          refine le_trans ?_ (mainFetchOn_len a _ _ _)
          simp [List.length_append]

theorem main_min_len (ctor : Ctor) (repo : Repo) (cwd : String) (a : Args)
    (hd : repo.is_dirty = false) :
    2 ≤ ((main ctor repo cwd a).1).length := by
  cases hf : a.fork with
  | none =>
      simp only [main, hd, Bool.false_eq_true, if_false, hf]
      have := mainAfterFork_len ctor repo (resolveRepoName cwd a.repo_name) a
        [Event.dirtyCheck]
      omega
  | some f =>
      by_cases hfe : f = ""
      · subst hfe
        simp only [main, hd, Bool.false_eq_true, if_false, hf]
        rw [if_pos trivial]
        have := mainAfterFork_len ctor repo (resolveRepoName cwd a.repo_name) a
          [Event.dirtyCheck]
        omega
      · cases hc : check_remote (resolveRepoName cwd a.repo_name) repo f with
        | some msg => simp [main, hd, hf, hfe, hc]
        | none =>
            simp only [main, hd, Bool.false_eq_true, if_false, hf, if_neg hfe, hc]
            have := mainAfterFork_len ctor repo (resolveRepoName cwd a.repo_name) a
              [Event.dirtyCheck, Event.remoteValidation f]
            omega

/-- C1: for every run that reaches the dispatch step, exactly one of the two
workflow collaborators is constructed and run, and the choice is determined
solely by addon presence on the target branch: the addon present among the
immediate child directories of the target branch root tree selects the
pull-request-porting workflow, absent selects the migration workflow. -/
theorem C1_dispatch_decision (ctor : Ctor) (repo : Repo) (cwd : String) (a : Args)
    (d : Dispatch) (tb : Branch)
    (hrun : (main ctor repo cwd a).2 = Outcome.finished d)
    (hct : ctor repo a.to_branch a.upstream = Except.ok tb) :
    d = (if a.addon ∈ tb.repo.rootDirs tb.ref then Dispatch.portPullRequests
         else Dispatch.migrate)
      ∧ ((main ctor repo cwd a).1).filter isRunWf = [Event.runWorkflow d] := by
  obtain ⟨fb, tb2, hcf, hct2, hd2⟩ := main_finished ctor repo cwd a d hrun
  have htb : tb2 = tb := by
    rw [hct] at hct2
    exact (Except.ok.inj hct2).symm
  constructor
  · rw [hd2, htb]
  · rw [main_filter, hrun]
    rfl

/-- C3: with uncommitted changes to tracked content present, the run terminates
at once with the dirty-repository error and no fetch is ever performed. -/
theorem C3_dirty_no_fetch (ctor : Ctor) (repo : Repo) (cwd : String) (a : Args)
    (hd : repo.is_dirty = true) :
    main ctor repo cwd a = ([Event.dirtyCheck], Outcome.clickException dirtyMsg)
      ∧ ((main ctor repo cwd a).1).filter isFetchEv = [] := by
  have hm : main ctor repo cwd a = ([Event.dirtyCheck], Outcome.clickException dirtyMsg) := by
    simp [main, hd]
  refine ⟨hm, ?_⟩
  rw [hm]
  rfl

/-- C8: the dispatch decision is a function of the invocation arguments and the
repository state alone: two runs of the same invocation against equal states
produce the same decision. -/
theorem C8_deterministic_decision (ctor : Ctor) (repo1 repo2 : Repo) (cwd : String)
    (a : Args) (h : repo1 = repo2) :
    decisionOf (main ctor repo1 cwd a).2 = decisionOf (main ctor repo2 cwd a).2 := by
  rw [h]

/-- C10: the entry dirty guard fires exactly when tracked content has
uncommitted (staged or unstaged) modifications; a working tree that differs
from HEAD only by untracked files is not considered dirty and the run proceeds
past the entry check. -/
theorem C10_untracked_not_dirty (ctor : Ctor) (repo : Repo) (cwd : String) (a : Args) :
    Repo.is_dirty repo = repo.trackedChanges
      ∧ (repo.trackedChanges = true →
          main ctor repo cwd a = ([Event.dirtyCheck], Outcome.clickException dirtyMsg))
      ∧ (repo.trackedChanges = false → repo.untrackedFiles = true →
          2 ≤ ((main ctor repo cwd a).1).length) := by
  refine ⟨rfl, ?_, ?_⟩
  · intro ht
    simp [main, Repo.is_dirty, ht]
  · intro ht _
    exact main_min_len ctor repo cwd a ht

/-- C4: the fetch step performs, for each reference with a bound remote,
exactly one fetch of exactly that branch name from exactly that remote (never a
full remote fetch), skips references with no bound remote, and fetches
sequentially in the caller-supplied order. -/
theorem C4_fetch_per_reference (bs : List Branch)
    (h : ∀ b ∈ bs, optTruthy b.remote = true → b.remote.getD "" ∈ b.repo.remotes) :
    fetch_branches (bs.map BVal.br)
      = (bs.filterMap (fun b =>
          if optTruthy b.remote then some (Event.fetch (b.remote.getD "") b.name)
          else none), none) := by
  induction bs with
  | nil => rfl
  | cons b rest ih =>
      have hb := h b (List.mem_cons_self b rest)
      have hrest : ∀ x ∈ rest, optTruthy x.remote = true → x.remote.getD "" ∈ x.repo.remotes :=
        fun x hx => h x (List.mem_cons_of_mem b hx)
      by_cases hr : optTruthy b.remote
      · have hm := hb hr
        simp [fetch_branches, hr, hm, List.filterMap_cons, ih hrest]
      · simp [fetch_branches, hr, List.filterMap_cons, ih hrest]

/-- C5: the branch existence check fails for every source reference without a
bound remote; a target reference passes when it has a bound remote or its bare
name is among the local heads; when it has neither, the error message names
both the bare name and the fully qualified ref. -/
theorem C5_branch_existence (fb tb : Branch) :
    (optTruthy fb.remote = false →
        check_branches fb tb = Except.error (srcBranchErrMsg fb))
      ∧ (optTruthy fb.remote = true →
          (optTruthy tb.remote = true ∨ tb.name ∈ tb.repo.heads) →
          check_branches fb tb = Except.ok true)
      ∧ (optTruthy fb.remote = true → optTruthy tb.remote = false →
          tb.name ∉ tb.repo.heads →
          check_branches fb tb = Except.error (tgtBranchErrMsg tb)
            ∧ (∃ u v, tgtBranchErrMsg tb = u ++ tb.name ++ v)
            ∧ (∃ u v, tgtBranchErrMsg tb = u ++ tb.ref ++ v)) := by
  refine ⟨?_, ?_, ?_⟩
  · intro h
    simp [check_branches, h]
  · intro h1 h2
    rcases h2 with h2 | h2
    · simp [check_branches, h1, h2]
    · simp [check_branches, h1, h2]
  · intro h1 h2 h3
    refine ⟨by simp [check_branches, h1, h2, h3], ?_, ?_⟩
    · exact ⟨"No target branch " ++ bc.BOLD,
        bc.END ++ " or " ++ bc.BOLD ++ tb.ref ++ bc.END ++ " available locally.",
        by simp [tgtBranchErrMsg, String.append_assoc]⟩
    · exact ⟨"No target branch " ++ bc.BOLD ++ tb.name ++ bc.END ++ " or " ++ bc.BOLD,
        bc.END ++ " available locally.",
        by simp [tgtBranchErrMsg, String.append_assoc]⟩

/-- C2: when the addon is absent from the immediate child directories of the
source branch commit root tree, the run aborts with a fatal error whose message
names the addon and the source ref, regardless of target-branch presence, and
neither workflow collaborator is ever invoked. -/
theorem C2_missing_source_addon (ctor : Ctor) (repo : Repo) (cwd : String) (a : Args)
    (fb tb : Branch)
    (hd : repo.is_dirty = false) (hfg : forkGateB repo a.fork = true)
    (hcf : ctor repo a.from_branch a.upstream = Except.ok fb)
    (hct : ctor repo a.to_branch a.upstream = Except.ok tb)
    (h1 : optTruthy fb.remote = true → fb.remote.getD "" ∈ fb.repo.remotes)
    (h2 : optTruthy tb.remote = true → tb.remote.getD "" ∈ tb.repo.remotes)
    (hcb : check_branches fb tb = Except.ok true)
    (hmiss : a.addon ∉ fb.repo.rootDirs fb.ref) :
    (main ctor repo cwd a).2 = Outcome.clickException (missingAddonMsg a.addon fb)
      ∧ (∃ u v, missingAddonMsg a.addon fb = u ++ a.addon ++ v)
      ∧ (∃ u v, missingAddonMsg a.addon fb = u ++ fb.ref ++ v)
      ∧ ((main ctor repo cwd a).1).filter isRunWf = [] := by
  have hm := main_happy ctor repo cwd a fb tb hd hfg hcf hct h1 h2 hcb
  have hout : (main ctor repo cwd a).2
      = Outcome.clickException (missingAddonMsg a.addon fb) := by
    rw [hm]
    simp [mainDispatch, check_addon_exists, hmiss]
  refine ⟨hout, ?_, ?_, ?_⟩
  · exact ⟨bc.FAIL, bc.ENDC ++ " does not exist on " ++ fb.ref,
      by simp [missingAddonMsg, String.append_assoc]⟩
  · exact ⟨bc.FAIL ++ a.addon ++ bc.ENDC ++ " does not exist on ", "",
      by simp [missingAddonMsg, String.append_assoc]⟩
  · rw [main_filter, hout]
    rfl

/-- C6: a requested `--fork` remote that is not configured aborts the run
before any fetch, with a message containing both the SSH-form and the
HTTPS-form `git remote add` examples for the requested remote name and the
resolved repository name. -/
theorem C6_unknown_fork_remote (ctor : Ctor) (repo : Repo) (cwd : String) (a : Args)
    (f : String)
    (hd : repo.is_dirty = false) (hf : a.fork = some f) (hfe : f ≠ "")
    (hnr : f ∉ repo.remotes) :
    (main ctor repo cwd a).2
        = Outcome.clickException
            (check_remote_msg (resolveRepoName cwd a.repo_name) f ++ forkSuffix)
      ∧ (∃ u v, check_remote_msg (resolveRepoName cwd a.repo_name) f ++ forkSuffix
            = u ++ sshAddCmd (resolveRepoName cwd a.repo_name) f ++ v)
      ∧ (∃ u v, check_remote_msg (resolveRepoName cwd a.repo_name) f ++ forkSuffix
            = u ++ httpsAddCmd (resolveRepoName cwd a.repo_name) f ++ v)
      ∧ ((main ctor repo cwd a).1).filter isFetchEv = [] := by
  have hmain : main ctor repo cwd a
      = ([Event.dirtyCheck, Event.remoteValidation f],
         Outcome.clickException
           (check_remote_msg (resolveRepoName cwd a.repo_name) f ++ forkSuffix)) := by
    simp [main, hd, hf, hfe, check_remote, hnr]
  refine ⟨by rw [hmain], ?_, ?_, by rw [hmain]; rfl⟩
  · refine ⟨"No remote " ++ bc.FAIL ++ f ++ bc.END ++ " in the current repository.\n"
        ++ "To add it:\n"
        ++ "\t# This mode requires an SSH key in the GitHub account\n"
        ++ "\t" ++ bc.DIM ++ "$ ",
      bc.END ++ "\n" ++ "   Or:\n"
        ++ "\t# This will require to enter user/password each time\n"
        ++ "\t" ++ bc.DIM ++ "$ " ++ httpsAddCmd (resolveRepoName cwd a.repo_name) f
        ++ bc.END ++ forkSuffix, ?_⟩
    simp [check_remote_msg, String.append_assoc]
  · refine ⟨"No remote " ++ bc.FAIL ++ f ++ bc.END ++ " in the current repository.\n"
        ++ "To add it:\n"
        ++ "\t# This mode requires an SSH key in the GitHub account\n"
        ++ "\t" ++ bc.DIM ++ "$ " ++ sshAddCmd (resolveRepoName cwd a.repo_name) f
        ++ bc.END ++ "\n" ++ "   Or:\n"
        ++ "\t# This will require to enter user/password each time\n"
        ++ "\t" ++ bc.DIM ++ "$ ",
      bc.END ++ forkSuffix, ?_⟩
    simp [check_remote_msg, String.append_assoc]

/-- C9: when constructing either branch reference raises `ValueError` naming a
remote that is configured, the except-handler returns without raising and the
run falls through to the fetch step with a raw string still in a branch
variable, ending in an uncaught `AttributeError` instead of a clean user-facing
error. -/
theorem C9_handler_falls_through (ctor : Ctor) (repo : Repo) (cwd : String) (a : Args)
    (rp : Repo) (r : String)
    (hd : repo.is_dirty = false) (hfg : forkGateB repo a.fork = true)
    (hcase :
      (ctor repo a.from_branch a.upstream = Except.error (rp, r) ∧ r ∈ rp.remotes)
        ∨ (∃ fb, ctor repo a.from_branch a.upstream = Except.ok fb
            ∧ (optTruthy fb.remote = true → fb.remote.getD "" ∈ fb.repo.remotes)
            ∧ ctor repo a.to_branch a.upstream = Except.error (rp, r)
            ∧ r ∈ rp.remotes)) :
    (main ctor repo cwd a).2 = Outcome.uncaughtAttributeError
      ∧ ∀ msg, (main ctor repo cwd a).2 ≠ Outcome.clickException msg := by
  have hmain := main_gates ctor repo cwd a hd hfg
  have hout : (main ctor repo cwd a).2 = Outcome.uncaughtAttributeError := by
    rw [hmain]
    rcases hcase with ⟨hcf, hr⟩ | ⟨fb, hcf, hfr, hct, hr⟩
    · simp [mainAfterFork, hcf, check_remote, hr, mainFetchOn, fetch_branches]
    · by_cases hrt : optTruthy fb.remote
      · simp [mainAfterFork, hcf, hct, check_remote, hr, mainFetchOn, fetch_branches,
          hrt, hfr hrt]
      · simp [mainAfterFork, hcf, hct, check_remote, hr, mainFetchOn, fetch_branches, hrt]
  refine ⟨hout, fun msg h => ?_⟩
  rw [hout] at h
  exact Outcome.noConfusion h

/-- C7, counterexample: in a concrete full run the entry dirty check precedes
branch reference resolution, so the step order asserted by the spec (branch
resolution of both branches first, then the dirty check, then remote
validation) does not hold of `main`. -/
theorem C7_spec_order_counterexample :
    ¬ specFlowOrder ((main Branch.make repo0 "wms" args0).1) := by
  intro h
  have htr : (main Branch.make repo0 "wms" args0).1
      = [Event.dirtyCheck, Event.remoteValidation "camptocamp",
         Event.branchResolution "13.0", Event.branchResolution "14.0",
         Event.fetch "origin" "13.0", Event.fetch "origin" "14.0",
         Event.branchCheck, Event.addonCheckSource, Event.addonCheckTarget,
         Event.runWorkflow Dispatch.migrate] := by rfl
  obtain ⟨h1, -⟩ := h
  rw [htr] at h1
  have h2 := h1 2 0 (by decide) (by decide) (by decide) (by decide)
  omega

/-- C7, amended: the preflight steps run in the order the code implements:
dirty check first, then remote validation of the push target when `--fork` is
requested, then branch reference resolution of both branches, then fetch, then
the branch existence check, then the source addon check, then the target addon
check, then dispatch. -/
theorem C7_amended_step_order (ctor : Ctor) (repo : Repo) (cwd : String) (a : Args)
    (fb tb : Branch)
    (hd : repo.is_dirty = false) (hfg : forkGateB repo a.fork = true)
    (hcf : ctor repo a.from_branch a.upstream = Except.ok fb)
    (hct : ctor repo a.to_branch a.upstream = Except.ok tb)
    (h1 : optTruthy fb.remote = true → fb.remote.getD "" ∈ fb.repo.remotes)
    (h2 : optTruthy tb.remote = true → tb.remote.getD "" ∈ tb.repo.remotes)
    (hcb : check_branches fb tb = Except.ok true)
    (hsrc : a.addon ∈ fb.repo.rootDirs fb.ref) :
    (main ctor repo cwd a).1
      = (Event.dirtyCheck :: forkEvents a.fork)
          ++ [Event.branchResolution a.from_branch, Event.branchResolution a.to_branch]
          ++ (fetchEvtsOf fb ++ fetchEvtsOf tb)
          ++ [Event.branchCheck, Event.addonCheckSource, Event.addonCheckTarget,
              Event.runWorkflow (if a.addon ∈ tb.repo.rootDirs tb.ref
                then Dispatch.portPullRequests else Dispatch.migrate)] := by
  rw [main_happy ctor repo cwd a fb tb hd hfg hcf hct h1 h2 hcb]
  by_cases ht : a.addon ∈ tb.repo.rootDirs tb.ref <;>
    simp [mainDispatch, check_addon_exists, hsrc, ht, List.append_assoc]

/-- Witness for C1 at a concrete run that dispatches the migration workflow. -/
theorem C1_dispatch_decision_witness :
    Dispatch.migrate
        = (if args0.addon ∈ tbr0.repo.rootDirs tbr0.ref then Dispatch.portPullRequests
           else Dispatch.migrate)
      ∧ ((main Branch.make repo0 "wms" args0).1).filter isRunWf
          = [Event.runWorkflow Dispatch.migrate] :=
  C1_dispatch_decision Branch.make repo0 "wms" args0 Dispatch.migrate tbr0 rfl rfl

/-- Witness for C2 at a concrete run whose source branch lacks the addon. -/
theorem C2_missing_source_addon_witness :
    (main Branch.make repoM "wms" args0).2
        = Outcome.clickException (missingAddonMsg args0.addon fbM)
      ∧ (∃ u v, missingAddonMsg args0.addon fbM = u ++ args0.addon ++ v)
      ∧ (∃ u v, missingAddonMsg args0.addon fbM = u ++ fbM.ref ++ v)
      ∧ ((main Branch.make repoM "wms" args0).1).filter isRunWf = [] :=
  C2_missing_source_addon Branch.make repoM "wms" args0 fbM tbM rfl rfl rfl rfl
    (by decide) (by decide) rfl (by decide)

/-- Witness for C3 at a concrete dirty repository. -/
theorem C3_dirty_no_fetch_witness :
    main Branch.make repoD "wms" args0
        = ([Event.dirtyCheck], Outcome.clickException dirtyMsg)
      ∧ ((main Branch.make repoD "wms" args0).1).filter isFetchEv = [] :=
  C3_dirty_no_fetch Branch.make repoD "wms" args0 rfl

/-- Witness for C4 at a concrete branch list with a remoteless reference in the
middle. -/
theorem C4_fetch_per_reference_witness :
    fetch_branches ([fbr0, lb0, tbr0].map BVal.br)
      = ([fbr0, lb0, tbr0].filterMap (fun b =>
          if optTruthy b.remote then some (Event.fetch (b.remote.getD "") b.name)
          else none), none) :=
  C4_fetch_per_reference [fbr0, lb0, tbr0] (by decide)

/-- Witness for C5 at a concrete target branch with neither remote nor local
head. -/
theorem C5_branch_existence_witness :
    check_branches fbr0 tb1 = Except.error (tgtBranchErrMsg tb1) :=
  ((C5_branch_existence fbr0 tb1).2.2 rfl rfl (by decide)).1

/-- Witness for C6 at a concrete repository without the requested fork
remote. -/
theorem C6_unknown_fork_remote_witness :
    (main Branch.make repoNC "wms" args0).2
        = Outcome.clickException
            (check_remote_msg (resolveRepoName "wms" args0.repo_name) "camptocamp"
              ++ forkSuffix) :=
  (C6_unknown_fork_remote Branch.make repoNC "wms" args0 "camptocamp" rfl rfl
      (by decide) (by decide)).1

/-- Witness for the amended C7 at a concrete full run. -/
theorem C7_amended_step_order_witness :
    (main Branch.make repo0 "wms" args0).1
      = (Event.dirtyCheck :: forkEvents args0.fork)
          ++ [Event.branchResolution args0.from_branch, Event.branchResolution args0.to_branch]
          ++ (fetchEvtsOf fbr0 ++ fetchEvtsOf tbr0)
          ++ [Event.branchCheck, Event.addonCheckSource, Event.addonCheckTarget,
              Event.runWorkflow (if args0.addon ∈ tbr0.repo.rootDirs tbr0.ref
                then Dispatch.portPullRequests else Dispatch.migrate)] :=
  C7_amended_step_order Branch.make repo0 "wms" args0 fbr0 tbr0 rfl rfl rfl rfl
    (by decide) (by decide) rfl (by decide)

/-- Witness for C8 at a concrete pair of identical runs. -/
theorem C8_deterministic_decision_witness :
    decisionOf (main Branch.make repo0 "wms" args0).2
      = decisionOf (main Branch.make repo0 "wms" args0).2 :=
  C8_deterministic_decision Branch.make repo0 repo0 "wms" args0 rfl

/-- Witness for C9 at a concrete constructor failing with a configured
remote. -/
theorem C9_handler_falls_through_witness :
    (main ctorBad repo0 "wms" args0).2 = Outcome.uncaughtAttributeError :=
  (C9_handler_falls_through ctorBad repo0 "wms" args0 repo0 "origin" rfl rfl
      (Or.inl ⟨rfl, by decide⟩)).1

/-- Witness for C10 at a concrete repository with only untracked files. -/
theorem C10_untracked_not_dirty_witness :
    2 ≤ ((main Branch.make repoU "wms" args0).1).length :=
  (C10_untracked_not_dirty Branch.make repoU "wms" args0).2.2 rfl rfl

end OcaPort
